import Mathlib

/-!
Verification of the glacier batching / dispatch / merge engine
(`src/glacier.py`, `src/openai_client.py`).

The Python code is shallowly embedded below.  External collaborators
(the tiktoken token counter and the OpenAI chat call) are parameters:
the token counter is an arbitrary `String → Nat`, and the outcome of one
API call is an `Except String String` (`ok` = response text, `error` =
exception message).  Python strings are Lean `String`s and operations
on them (`strip`, `splitlines`, `startswith`, `"\n".join`) are embedded
as character-list recursions so that everything evaluates by `decide`.
-/

namespace Glacier

/-! ### Python string primitives -/

/-- Whitespace recognised by Python `str.strip`. -/
def isPySpace (c : Char) : Bool :=
  c = ' ' || c = '\t' || c = '\n' || c = '\r' || c = '\x0b' || c = '\x0c'

/-- Python `str.strip()`: drop leading and trailing whitespace. -/
def pyStrip (s : String) : String :=
  String.mk (((s.data.dropWhile isPySpace).reverse.dropWhile isPySpace).reverse)

/-- Splits a character list at newline characters. -/
def splitNl (acc : List Char) : List Char → List (List Char)
  | [] => [acc.reverse]
  | c :: cs => if c = '\n' then acc.reverse :: splitNl [] cs else splitNl (c :: acc) cs

/-- Python `str.splitlines()` (newline-separated; a possible final empty
line is immaterial here because callers filter empty lines away). -/
def pySplitlines (s : String) : List String :=
  (splitNl [] s.data).map String.mk

/-- Python `s.startswith(pre)`. -/
def pyStartsWith (s pre : String) : Bool :=
  pre.data.isPrefixOf s.data

/-- Python `"\n".join(urls)`. -/
def joinNl : List String → String
  | [] => ""
  | [u] => u
  | u :: us => u ++ "\n" ++ joinNl us

/-! ### Prompt templates (`src/openai_client.py`) -/

/-- `prompt_tech_only(tech, n)`. -/
def prompt_tech_only (tech : String) (n : Nat) : String :=
  "You are assisting a pentester in content discovery and provide URLs that may contain secrets or other sensitive endpoints that could be helpful to find. "
    ++ "The following tech stack is known: " ++ tech ++ ". Create " ++ toString n
    ++ " URLs for content discovery. Provide only relative URLs. Create one URL per line. "
    ++ "Given this tech stack: " ++ tech ++ ", provide " ++ toString n
    ++ " possible explanations of what the app likely does."

/-- `prompt_tech_and_urls(tech, urls, n)`. -/
def prompt_tech_and_urls (tech : String) (urls : List String) (n : Nat) : String :=
  "You are assisting a pentester in content discovery and provide URLs that may contain secrets or other sensitive endpoints that could be helpful to find. "
    ++ "The following tech stack is known: " ++ tech ++ ". The following URLs are known:\n"
    ++ joinNl urls ++ "\n"
    ++ "Create " ++ toString n
    ++ " additional URLs for content discovery based on this data. Provide only relative URLs. Create one URL per line."

/-- `prompt_urls_only(urls, n)`. -/
def prompt_urls_only (urls : List String) (n : Nat) : String :=
  "You are assisting a pentester in content discovery and provide URLs that may contain secrets or other sensitive endpoints that could be helpful to find. "
    ++ "The following URLs are known:\n"
    ++ joinNl urls ++ "\n"
    ++ "Create " ++ toString n
    ++ " additional URLs for content discovery based on this data. Provide only relative URLs. Create one URL per line."

/-! ### BatchPlanner (`batch_urls`, glacier.py:70-101)

`mkPrompt b n` stands for the Python
`prompt_func(tech, b, n) if tech else prompt_func(b, n)`, i.e. the chosen
prompt builder with any tech description already applied.
`count_tokens` is the external tiktoken counter. -/

/-- Tokens charged to a tentative batch `b` inside `batch_urls`:
`client.count_tokens(prompt) + len(b) * 20`. -/
def batchTokens (count_tokens : String → Nat) (mkPrompt : List String → Nat → String)
    (b : List String) : Nat :=
  count_tokens (mkPrompt b b.length) + b.length * 20

/-- The loop of `batch_urls`, with the running `current_batch` explicit.
`tok b` is the total token estimate of the tentative batch `b`. -/
def batchUrlsAux (max_tokens_per_batch : Nat) (tok : List String → Nat) :
    List String → List String → List (List String)
  | current, [] => if current.isEmpty then [] else [current]
  | current, url :: rest =>
      if tok (current ++ [url]) > max_tokens_per_batch then
        if current.isEmpty then
          batchUrlsAux max_tokens_per_batch tok [url] rest
        else
          current :: batchUrlsAux max_tokens_per_batch tok [url] rest
      else
        batchUrlsAux max_tokens_per_batch tok (current ++ [url]) rest

/-- `batch_urls(urls, max_tokens_per_batch, client, prompt_func, tech)`. -/
def batch_urls (urls : List String) (max_tokens_per_batch : Nat)
    (count_tokens : String → Nat) (mkPrompt : List String → Nat → String) :
    List (List String) :=
  batchUrlsAux max_tokens_per_batch (batchTokens count_tokens mkPrompt) [] urls

/-! ### Result quota distribution (glacier.py:180-189) -/

/-- `n_for_batch` for the batch at 0-based index `i`:
`base_n + (1 if batch_idx < remainder else 0)` where
`base_n = total_results // num_batches` and
`remainder = total_results % num_batches`. -/
def quota (total_results num_batches i : Nat) : Nat :=
  total_results / num_batches + (if i < total_results % num_batches then 1 else 0)

/-- The batch plan `main` builds before dispatch: each batch paired with its
quota.  Python computes `base_n = total_results // num_batches`, which raises
`ZeroDivisionError` when `batch_urls` returned no batches; that fallibility is
the `Option`. -/
def runPlan (urls : List String) (max_tokens_per_batch : Nat)
    (count_tokens : String → Nat) (mkPrompt : List String → Nat → String)
    (total_results : Nat) : Option (List (List String × Nat)) :=
  let batches := batch_urls urls max_tokens_per_batch count_tokens mkPrompt
  if batches.length = 0 then
    none
  else
    some (batches.enum.map (fun p => (p.2, quota total_results batches.length p.1)))

/-! ### Cost-estimation mode (glacier.py:146-163) -/

/-- The `args.cost` branch of `main`: builds ONE prompt over all seed URLs
(choosing the template by which inputs are present) and reports
`count_tokens(prompt) + num_results * 20`.  `none` is the
"Nothing to estimate cost for" early exit. -/
def costEstimate (count_tokens : String → Nat) (tech : Option String)
    (urls : List String) (num_results : Nat) : Option Nat :=
  match urls, tech with
  | _ :: _, some t =>
      some (count_tokens (prompt_tech_and_urls t urls num_results) + num_results * 20)
  | _ :: _, none =>
      some (count_tokens (prompt_urls_only urls num_results) + num_results * 20)
  | [], some t =>
      some (count_tokens (prompt_tech_only t num_results) + num_results * 20)
  | [], none => none

/-- The `prompt_func` selection of `main` (glacier.py:166-171) for a
non-empty URL list: `prompt_tech_and_urls` with the tech description bound
when a tech description is present, else `prompt_urls_only`. -/
def chosenPrompt (tech : Option String) : List String → Nat → String :=
  match tech with
  | some t => fun us n => prompt_tech_and_urls t us n
  | none => fun us n => prompt_urls_only us n

/-- Modelled from the spec: the cost-estimation mode described in spec §4.4,
which is absent from `src/glacier.py` in this form — "compute the same batch
plan, sum `estimateTokens(prompt) + resultQuota * outputTokensPerResult`
across all planned batches" (outputTokensPerResult = 20), with the batch plan
of spec §4.1 (an empty seed list yields one batch with an empty URL list). -/
def specCostEstimate (count_tokens : String → Nat) (tech : Option String)
    (urls : List String) (num_results : Nat) (max_tokens_per_batch : Nat) :
    Option Nat :=
  match urls, tech with
  | [], none => none
  | [], some t =>
      some (count_tokens (prompt_tech_only t (quota num_results 1 0)) +
        quota num_results 1 0 * 20)
  | _ :: _, _ =>
      let mkPrompt := chosenPrompt tech
      let batches := batch_urls urls max_tokens_per_batch count_tokens mkPrompt
      some ((batches.enum.map (fun p =>
        count_tokens (mkPrompt p.2 (quota num_results batches.length p.1)) +
          quota num_results batches.length p.1 * 20)).sum)

/-! ### Dispatcher (`process_batch` and the executor loop, glacier.py:188-210) -/

/-- The try/except of `process_batch` around `call_openai`: a raised
exception becomes the string `ERROR: ...e...`. -/
def process_batch (outcome : Except String String) : String :=
  match outcome with
  | .ok t => t
  | .error e => "ERROR: " ++ e

/-- The prompts `main` submits to the API, one per planned batch
(`process_batch` builds `prompt_func(... , n_for_batch)` and always calls
`call_openai`; there is no skip). -/
def dispatched_prompts (mkPrompt : List String → Nat → String) (total_results : Nat)
    (batches : List (List String)) : List String :=
  batches.enum.map (fun p => mkPrompt p.2 (quota total_results batches.length p.1))

/-- The `results` list built by the `as_completed` loop: `completed` holds
the call outcome of each batch in the order the futures completed; texts
starting with `ERROR:` are dropped, the rest appended in completion order. -/
def collect_results : List (Except String String) → List String
  | [] => []
  | o :: rest =>
      if pyStartsWith (process_batch o) "ERROR:" then collect_results rest
      else process_batch o :: collect_results rest

/-- The `errors` counter of the `as_completed` loop. -/
def count_errors : List (Except String String) → Nat
  | [] => 0
  | o :: rest =>
      (if pyStartsWith (process_batch o) "ERROR:" then 1 else 0) + count_errors rest

/-- The texts of the genuinely successful outcomes, in order. -/
def okTexts : List (Except String String) → List String
  | [] => []
  | .ok t :: rest => t :: okTexts rest
  | .error _ :: rest => okTexts rest

/-- `true` exactly on `error` outcomes (a raised exception). -/
def isFailure : Except String String → Bool
  | .ok _ => false
  | .error _ => true

/-! ### ResultMerger (glacier.py:213-222) -/

/-- The contribution of one response text to `all_lines`:
`[line.strip() for line in r.splitlines() if line.strip()]`. -/
def splitClean (r : String) : List String :=
  ((pySplitlines r).map pyStrip).filter (fun l => l ≠ "")

/-- `all_lines` accumulated over all collected results. -/
def all_lines (results : List String) : List String :=
  results.flatMap splitClean

/-- The dedup/filter loop over `all_lines`, with the `seen` set explicit:
a line already seen or present in the wordlist is dropped, otherwise it is
appended and recorded as seen. -/
def dedupFilter (wordlist : List String) : List String → List String → List String
  | _, [] => []
  | seen, line :: rest =>
      if line ∈ seen ∨ line ∈ wordlist then dedupFilter wordlist seen rest
      else line :: dedupFilter wordlist (line :: seen) rest

/-- The `seen` set after the dedup/filter loop has run over `l`. -/
def seenAfter (wordlist : List String) : List String → List String → List String
  | seen, [] => seen
  | seen, line :: rest =>
      if line ∈ seen ∨ line ∈ wordlist then seenAfter wordlist seen rest
      else seenAfter wordlist (line :: seen) rest

/-- `filtered`: the final merged, deduplicated, wordlist-filtered list. -/
def mergeResults (results : List String) (wordlist : List String) : List String :=
  dedupFilter wordlist [] (all_lines results)

/-- The FinalResultSet produced from the batch outcomes as they completed. -/
def finalResultSet (completed : List (Except String String)) (wordlist : List String) :
    List String :=
  mergeResults (collect_results completed) wordlist

/-- Modelled from the spec: the canonical-sorted dedup policy — spec §4.3
policy (b), present in other variants of the repository but absent from
`src/glacier.py` (which hardwires policy (a), insertion-order dedup):
collect the wordlist-filtered lines into a duplicate-free set and emit them
in lexicographic sorted order. -/
def mergeSorted (results : List String) (wordlist : List String) : List String :=
  (((all_lines results).filter (fun l => l ∉ wordlist)).dedup).insertionSort (· ≤ ·)

/-! ## Helper lemmas -/

/-- Concatenating the batches produced from any running state restores the
running state followed by the remaining input. -/
theorem batchUrlsAux_flatten (max_tokens_per_batch : Nat) (tok : List String → Nat)
    (rest : List String) :
    ∀ current, (batchUrlsAux max_tokens_per_batch tok current rest).flatten =
      current ++ rest := by
  induction rest with
  | nil =>
      intro current
      by_cases h : current.isEmpty
      · rw [List.isEmpty_iff] at h
        simp [batchUrlsAux, h]
      · simp [batchUrlsAux, h]
  | cons url rest ih =>
      intro current
      by_cases hov : tok (current ++ [url]) > max_tokens_per_batch
      · by_cases hemp : current.isEmpty
        · rw [List.isEmpty_iff] at hemp
          simp [batchUrlsAux, hov, hemp, ih]
        · simp [batchUrlsAux, hov, hemp, ih]
      · simp [batchUrlsAux, hov, ih]

/-- A text produced by a raised exception always carries the `ERROR:` prefix. -/
theorem error_text_starts (e : String) :
    pyStartsWith ("ERROR: " ++ e) "ERROR:" = true := rfl

/-- Membership in the dedup/filter loop output: a line appears iff it occurs
in the input, is not in the wordlist, and was not already seen. -/
theorem mem_dedupFilter (wordlist : List String) (x : String) :
    ∀ (l seen : List String),
      x ∈ dedupFilter wordlist seen l ↔ x ∈ l ∧ x ∉ wordlist ∧ x ∉ seen := by
  intro l
  induction l with
  | nil => intro seen; simp [dedupFilter]
  | cons a l ih =>
      intro seen
      by_cases h : a ∈ seen ∨ a ∈ wordlist
      · simp only [dedupFilter, if_pos h]
        rw [ih seen]
        constructor
        · rintro ⟨hl, hw, hs⟩
          exact ⟨List.mem_cons_of_mem _ hl, hw, hs⟩
        · rintro ⟨hmem, hw, hs⟩
          rcases List.mem_cons.mp hmem with rfl | hl
          · rcases h with hh | hh
            · exact absurd hh hs
            · exact absurd hh hw
          · exact ⟨hl, hw, hs⟩
      · simp only [dedupFilter, if_neg h, List.mem_cons]
        rw [ih (a :: seen)]
        push_neg at h
        constructor
        · rintro (rfl | ⟨hl, hw, hs⟩)
          · exact ⟨Or.inl rfl, h.2, h.1⟩
          · exact ⟨Or.inr hl, hw, fun hx => hs (List.mem_cons_of_mem a hx)⟩
        · rintro ⟨hmem, hw, hs⟩
          rcases hmem with rfl | hl
          · exact Or.inl rfl
          · by_cases hxa : x = a
            · exact Or.inl hxa
            · refine Or.inr ⟨hl, hw, ?_⟩
              intro hx
              rcases List.mem_cons.mp hx with h1 | h1
              · exact hxa h1
              · exact hs h1

/-- The dedup/filter loop distributes over list append, threading the seen
set through `seenAfter`. -/
theorem dedupFilter_append (wordlist : List String) :
    ∀ (l₁ seen l₂ : List String),
      dedupFilter wordlist seen (l₁ ++ l₂) =
        dedupFilter wordlist seen l₁ ++
          dedupFilter wordlist (seenAfter wordlist seen l₁) l₂ := by
  intro l₁
  induction l₁ with
  | nil => intro seen l₂; simp [dedupFilter, seenAfter]
  | cons a l ih =>
      intro seen l₂
      by_cases h : a ∈ seen ∨ a ∈ wordlist
      · simp only [List.cons_append, dedupFilter, seenAfter, if_pos h]
        exact ih seen l₂
      · simp only [List.cons_append, dedupFilter, seenAfter, if_neg h]
        exact congrArg (a :: ·) (ih (a :: seen) l₂)

/-- The seen set only grows while the loop runs. -/
theorem mem_seenAfter_of_mem_seen (wordlist : List String) :
    ∀ (l seen : List String) (x : String),
      x ∈ seen → x ∈ seenAfter wordlist seen l := by
  intro l
  induction l with
  | nil => intro seen x hx; simpa [seenAfter] using hx
  | cons a l ih =>
      intro seen x hx
      by_cases h : a ∈ seen ∨ a ∈ wordlist
      · simp only [seenAfter, if_pos h]
        exact ih seen x hx
      · simp only [seenAfter, if_neg h]
        exact ih (a :: seen) x (List.mem_cons_of_mem a hx)

/-- After the loop has run over `l`, every element of `l` is recorded as
seen unless it belongs to the wordlist. -/
theorem mem_seenAfter_of_mem_list (wordlist : List String) :
    ∀ (l seen : List String) (x : String),
      x ∈ l → x ∈ seenAfter wordlist seen l ∨ x ∈ wordlist := by
  intro l
  induction l with
  | nil => intro seen x hx; cases hx
  | cons a l ih =>
      intro seen x hx
      rcases List.mem_cons.mp hx with rfl | hl
      · by_cases h : x ∈ seen ∨ x ∈ wordlist
        · rcases h with hh | hh
          · left
            simp only [seenAfter, if_pos (Or.inl hh)]
            exact mem_seenAfter_of_mem_seen wordlist l seen x hh
          · right
            exact hh
        · left
          simp only [seenAfter, if_neg h]
          exact mem_seenAfter_of_mem_seen wordlist l (x :: seen) x
            (List.mem_cons_self x seen)
      · by_cases h : a ∈ seen ∨ a ∈ wordlist
        · simp only [seenAfter, if_pos h]
          exact ih seen x hl
        · simp only [seenAfter, if_neg h]
          exact ih (a :: seen) x hl

/-- A run of the loop over lines that are all seen or wordlisted emits
nothing. -/
theorem dedupFilter_eq_nil (wordlist : List String) :
    ∀ (l seen : List String), (∀ x ∈ l, x ∈ seen ∨ x ∈ wordlist) →
      dedupFilter wordlist seen l = [] := by
  intro l
  induction l with
  | nil => intro seen _; rfl
  | cons a l ih =>
      intro seen hall
      have ha := hall a (List.mem_cons_self a l)
      simp only [dedupFilter, if_pos ha]
      exact ih seen (fun x hx => hall x (List.mem_cons_of_mem a hx))

/-- Membership in the merged output. -/
theorem mem_mergeResults (results wordlist : List String) (x : String) :
    x ∈ mergeResults results wordlist ↔
      x ∈ all_lines results ∧ x ∉ wordlist := by
  unfold mergeResults
  rw [mem_dedupFilter]
  simp

/-- The collection loop equals a filter over the mapped outcome texts. -/
theorem collect_results_eq_filter (l : List (Except String String)) :
    collect_results l =
      (l.map process_batch).filter (fun t => !(pyStartsWith t "ERROR:")) := by
  induction l with
  | nil => rfl
  | cons o rest ih =>
      by_cases h : pyStartsWith (process_batch o) "ERROR:" = true
      · simp [collect_results, h, ih, List.filter_cons]
      · simp [collect_results, h, ih, List.filter_cons]

/-- When no successful text carries the `ERROR:` prefix, the collection loop
keeps exactly the successful texts, in completion order. -/
theorem collect_results_ok :
    ∀ (l : List (Except String String)),
      (∀ t ∈ okTexts l, pyStartsWith t "ERROR:" = false) →
      collect_results l = okTexts l := by
  intro l
  induction l with
  | nil => intro _; rfl
  | cons o rest ih =>
      intro hok
      cases o with
      | ok t =>
          have ht : pyStartsWith t "ERROR:" = false := hok t (by simp [okTexts])
          have ih' := ih (fun u hu => hok u (by simp [okTexts, hu]))
          simp [collect_results, process_batch, okTexts, ht, ih']
      | error e =>
          have ih' := ih (fun u hu => hok u (by simp [okTexts, hu]))
          simp [collect_results, process_batch, okTexts, error_text_starts, ih']

/-- When no successful text carries the `ERROR:` prefix, the error counter
counts exactly the failed outcomes. -/
theorem count_errors_eq_failures :
    ∀ (l : List (Except String String)),
      (∀ t ∈ okTexts l, pyStartsWith t "ERROR:" = false) →
      count_errors l = (l.filter isFailure).length := by
  intro l
  induction l with
  | nil => intro _; rfl
  | cons o rest ih =>
      intro hok
      cases o with
      | ok t =>
          have ht : pyStartsWith t "ERROR:" = false := hok t (by simp [okTexts])
          have ih' := ih (fun u hu => hok u (by simp [okTexts, hu]))
          simp [count_errors, process_batch, isFailure, ht, List.filter_cons, ih']
      | error e =>
          have ih' := ih (fun u hu => hok u (by simp [okTexts, hu]))
          simp [count_errors, process_batch, isFailure, error_text_starts,
            List.filter_cons, ih']
          omega

end Glacier

namespace Glacier

/-! ## Claims -/

/-- C1: for every seed URL list and every positive token budget, the batches
produced by `batch_urls`, concatenated in batch order, equal the original
seed URL list exactly — no URL dropped, reordered, or duplicated. -/
theorem batch_urls_concat_exact (urls : List String) (max_tokens_per_batch : Nat)
    (count_tokens : String → Nat) (mkPrompt : List String → Nat → String)
    (hpos : 0 < max_tokens_per_batch) :
    (batch_urls urls max_tokens_per_batch count_tokens mkPrompt).flatten = urls := by
  unfold batch_urls
  simpa using batchUrlsAux_flatten max_tokens_per_batch
    (batchTokens count_tokens mkPrompt) urls []

/-- Witness for C1 at a concrete input. -/
theorem batch_urls_concat_exact_witness :
    0 < 330 ∧
    (batch_urls ["a", "b"] 330 String.length (chosenPrompt none)).flatten = ["a", "b"] :=
  ⟨by decide,
   batch_urls_concat_exact ["a", "b"] 330 String.length (chosenPrompt none) (by decide)⟩

/-- C2 (code bug): with an empty seed URL list the planner returns zero
batches rather than one batch with an empty URL list, and the plan step of
`main` then fails (Python divides `total_results` by `num_batches = 0`,
raising ZeroDivisionError), so a tech-only prompt is never dispatched. -/
theorem empty_seed_plan_crashes (max_tokens_per_batch : Nat)
    (count_tokens : String → Nat) (mkPrompt : List String → Nat → String)
    (total_results : Nat) :
    batch_urls [] max_tokens_per_batch count_tokens mkPrompt = [] ∧
    runPlan [] max_tokens_per_batch count_tokens mkPrompt total_results = none := by
  refine ⟨rfl, ?_⟩
  simp [runPlan, batch_urls, batchUrlsAux]

/-- The sum of the indicator of `i < r` over `i < B` is `min r B`. -/
theorem sum_range_ite_lt (r : Nat) :
    ∀ B, (∑ i ∈ Finset.range B, if i < r then 1 else 0) = min r B := by
  intro B
  induction B with
  | zero => simp
  | succ B ih =>
      rw [Finset.sum_range_succ, ih]
      by_cases h : B < r
      · rw [if_pos h]
        omega
      · rw [if_neg h]
        omega

/-- C3: for every positive `totalResults` and batch count `B ≥ 1`, the
per-batch quotas sum to exactly `totalResults`, and the batch at index `i`
receives `base + 1` exactly when `i < totalResults % B`. -/
theorem quota_sum_exact (N B : Nat) (hB : 1 ≤ B) (hN : 0 < N) :
    (∑ i ∈ Finset.range B, quota N B i) = N ∧
    (∀ i, i < B →
      quota N B i = if i < N % B then N / B + 1 else N / B) := by
  constructor
  · unfold quota
    rw [Finset.sum_add_distrib, Finset.sum_const, Finset.card_range, smul_eq_mul,
      sum_range_ite_lt]
    have hmod : N % B < B := Nat.mod_lt _ hB
    have hmin : min (N % B) B = N % B := by omega
    rw [hmin]
    exact Nat.div_add_mod N B
  · intro i _
    unfold quota
    by_cases h : i < N % B <;> simp [h]

/-- Witness for C3: five results over two batches split as 3 and 2. -/
theorem quota_sum_exact_witness :
    (∑ i ∈ Finset.range 2, quota 5 2 i) = 5 ∧
    (∀ i, i < 2 → quota 5 2 i = if i < 5 % 2 then 5 / 2 + 1 else 5 / 2) :=
  quota_sum_exact 5 2 (by decide) (by decide)

set_option maxRecDepth 40000 in
/-- C5 counterexample: with `count_tokens = String.length`, seed URLs
`["a", "b"]` and budget 330, the planner splits into two batches, yet cost
mode reports 326 — the estimate of one prompt over all seed URLs — while the
per-batch sum the spec describes is 628. -/
theorem cost_mode_not_per_batch :
    batch_urls ["a", "b"] 330 String.length (chosenPrompt none) = [["a"], ["b"]] ∧
    costEstimate String.length none ["a", "b"] 1 = some 326 ∧
    specCostEstimate String.length none ["a", "b"] 1 330 = some 628 ∧
    some 326 ≠ some 628 := by
  refine ⟨by decide, by decide, by decide, by decide⟩

/-- C5 (amended): cost-estimation mode reports the token estimate of a single
prompt over all seed URLs plus `totalResults * 20`, without invoking the API;
this agrees with the per-batch sum over the batch plan exactly when the
planner produces a single batch holding all seed URLs. -/
theorem cost_mode_single_prompt (count_tokens : String → Nat) (tech : Option String)
    (urls : List String) (num_results max_tokens_per_batch : Nat)
    (hne : urls ≠ [])
    (hplan : batch_urls urls max_tokens_per_batch count_tokens (chosenPrompt tech) =
      [urls]) :
    costEstimate count_tokens tech urls num_results =
      some (count_tokens (chosenPrompt tech urls num_results) + num_results * 20) ∧
    specCostEstimate count_tokens tech urls num_results max_tokens_per_batch =
      costEstimate count_tokens tech urls num_results := by
  cases urls with
  | nil => exact absurd rfl hne
  | cons u us =>
      cases tech with
      | none =>
          refine ⟨rfl, ?_⟩
          simp only [specCostEstimate]
          rw [hplan]
          simp [costEstimate, quota, chosenPrompt, Nat.mod_one, Nat.div_one]
      | some t =>
          refine ⟨rfl, ?_⟩
          simp only [specCostEstimate]
          rw [hplan]
          simp [costEstimate, quota, chosenPrompt, Nat.mod_one, Nat.div_one]

set_option maxRecDepth 40000 in
/-- Witness for C5 (amended) at a concrete single-batch input. -/
theorem cost_mode_single_prompt_witness :
    (["a"] : List String) ≠ [] ∧
    batch_urls ["a"] 1000 String.length (chosenPrompt none) = [["a"]] ∧
    (costEstimate String.length none ["a"] 3 =
      some (String.length (chosenPrompt none ["a"] 3) + 3 * 20) ∧
    specCostEstimate String.length none ["a"] 3 1000 =
      costEstimate String.length none ["a"] 3) :=
  ⟨by decide, by decide,
   cost_mode_single_prompt String.length none ["a"] 3 1000 (by decide) (by decide)⟩

set_option maxRecDepth 40000 in
/-- C6 counterexample: with two planned batches and `totalResults = 1` the
batch at index 1 has quota 0, yet its prompt is still submitted to the API
(`process_batch` never skips). -/
theorem quota_zero_batch_still_called :
    quota 1 2 1 = 0 ∧
    dispatched_prompts (chosenPrompt none) 1 [["a"], ["b"]] =
      [prompt_urls_only ["a"] 1, prompt_urls_only ["b"] 0] := by
  refine ⟨rfl, by decide⟩

/-- C6 (amended): the dispatcher invokes the API once for every planned
batch, including batches whose quota is 0 — no batch is skipped. -/
theorem dispatched_prompts_length (mkPrompt : List String → Nat → String)
    (total_results : Nat) (batches : List (List String)) :
    (dispatched_prompts mkPrompt total_results batches).length = batches.length := by
  simp [dispatched_prompts]


/-- C4 counterexample: the same two successful batch outcomes, completing in
the two possible orders, yield FinalResultSets listing their lines in
different orders, because the loop appends results in completion order. -/
theorem final_set_depends_on_completion_order :
    ([Except.ok "a", Except.ok "b"] : List (Except String String)).Perm
      [Except.ok "b", Except.ok "a"] ∧
    finalResultSet [Except.ok "a", Except.ok "b"] [] ≠
      finalResultSet [Except.ok "b", Except.ok "a"] [] := by
  constructor
  · exact List.Perm.swap (Except.ok "b") (Except.ok "a") []
  · decide

/-- C4 (amended): the set of lines in the FinalResultSet does not depend on
the completion order of the batch calls, but the order of its entries does:
membership is invariant under any permutation of the completion sequence. -/
theorem final_set_mem_completion_invariant (c₁ c₂ : List (Except String String))
    (wordlist : List String) (h : c₁.Perm c₂) (x : String) :
    x ∈ finalResultSet c₁ wordlist ↔ x ∈ finalResultSet c₂ wordlist := by
  unfold finalResultSet
  rw [mem_mergeResults, mem_mergeResults]
  have hcr : (collect_results c₁).Perm (collect_results c₂) := by
    rw [collect_results_eq_filter, collect_results_eq_filter]
    exact (h.map process_batch).filter _
  have hal : (all_lines (collect_results c₁)).Perm
      (all_lines (collect_results c₂)) := by
    unfold all_lines
    exact List.Perm.flatMap_right splitClean hcr
  rw [hal.mem_iff]

/-- Witness for C4 (amended) at a concrete pair of completion orders. -/
theorem final_set_mem_completion_invariant_witness :
    ("a" ∈ finalResultSet [Except.ok "a", Except.ok "b"] []) ↔
      ("a" ∈ finalResultSet [Except.ok "b", Except.ok "a"] []) :=
  final_set_mem_completion_invariant [Except.ok "a", Except.ok "b"]
    [Except.ok "b", Except.ok "a"] []
    (List.Perm.swap (Except.ok "b") (Except.ok "a") []) "a"

/-- C7 counterexample: one genuinely failed batch plus one successful batch
whose text begins with `ERROR:` — the reported failure count is 2 although
exactly one batch failed. -/
theorem failure_count_overcounted :
    (([Except.ok "ERROR: oops", Except.error "boom"] :
      List (Except String String)).filter isFailure).length = 1 ∧
    count_errors [Except.ok "ERROR: oops", Except.error "boom"] = 2 := by
  refine ⟨by decide, by decide⟩

/-- C7 (amended): provided no successful response text itself begins with
`ERROR:`, a failed batch never aborts the run or removes the output of other
batches: the reported failure count equals the number of failed batches, the
FinalResultSet contains every wordlist-filtered line of every successful
batch, and every line of the FinalResultSet comes from a successful batch. -/
theorem partial_failure_isolation (outcomes : List (Except String String))
    (wordlist : List String)
    (hok : ∀ t ∈ okTexts outcomes, pyStartsWith t "ERROR:" = false)
    (hfail : outcomes.any isFailure = true)
    (hsucc : okTexts outcomes ≠ []) :
    count_errors outcomes = (outcomes.filter isFailure).length ∧
    (∀ t ∈ okTexts outcomes, ∀ x ∈ splitClean t,
      x ∉ wordlist → x ∈ finalResultSet outcomes wordlist) ∧
    (∀ x ∈ finalResultSet outcomes wordlist,
      ∃ t ∈ okTexts outcomes, x ∈ splitClean t) := by
  refine ⟨count_errors_eq_failures outcomes hok, ?_, ?_⟩
  · intro t ht x hx hxw
    unfold finalResultSet
    rw [collect_results_ok outcomes hok, mem_mergeResults]
    refine ⟨?_, hxw⟩
    unfold all_lines
    exact List.mem_flatMap.mpr ⟨t, ht, hx⟩
  · intro x hx
    unfold finalResultSet at hx
    rw [collect_results_ok outcomes hok, mem_mergeResults] at hx
    rcases hx with ⟨hal, _⟩
    unfold all_lines at hal
    exact List.mem_flatMap.mp hal

/-- Witness for C7 (amended): three batches of which the second fails. -/
theorem partial_failure_isolation_witness :
    count_errors [Except.ok "/admin", Except.error "boom", Except.ok "/login"] =
      (([Except.ok "/admin", Except.error "boom", Except.ok "/login"] :
        List (Except String String)).filter isFailure).length ∧
    (∀ t ∈ okTexts [Except.ok "/admin", Except.error "boom", Except.ok "/login"],
      ∀ x ∈ splitClean t, x ∉ ([] : List String) →
        x ∈ finalResultSet
          [Except.ok "/admin", Except.error "boom", Except.ok "/login"] []) ∧
    (∀ x ∈ finalResultSet
        [Except.ok "/admin", Except.error "boom", Except.ok "/login"] [],
      ∃ t ∈ okTexts [Except.ok "/admin", Except.error "boom", Except.ok "/login"],
        x ∈ splitClean t) :=
  partial_failure_isolation
    [Except.ok "/admin", Except.error "boom", Except.ok "/login"] []
    (by decide) (by decide) (by decide)

/-- C8: a line that exactly matches a wordlist entry is absent from the
FinalResultSet under both dedup policies (insertion-order, as the source
hardwires, and canonical-sorted, as modelled from the spec). -/
theorem wordlist_line_excluded (results wordlist : List String) (x : String)
    (hx : x ∈ wordlist) :
    x ∉ mergeResults results wordlist ∧ x ∉ mergeSorted results wordlist := by
  constructor
  · intro hmem
    rw [mem_mergeResults] at hmem
    exact hmem.2 hx
  · intro hmem
    unfold mergeSorted at hmem
    have h1 : x ∈ ((all_lines results).filter (fun l => l ∉ wordlist)).dedup :=
      (List.perm_insertionSort (α := String) (· ≤ ·) _).mem_iff.mp hmem
    rw [List.mem_dedup, List.mem_filter] at h1
    have h2 : x ∉ wordlist := by simpa using h1.2
    exact h2 hx

/-- Witness for C8 at a concrete batch text and wordlist. -/
theorem wordlist_line_excluded_witness :
    "/secret" ∈ ["/secret"] ∧
    ("/secret" ∉ mergeResults ["/admin\n/secret"] ["/secret"] ∧
     "/secret" ∉ mergeSorted ["/admin\n/secret"] ["/secret"]) :=
  ⟨by decide,
   wordlist_line_excluded ["/admin\n/secret"] ["/secret"] "/secret" (by decide)⟩

/-- C9: merging the same successful batch result twice under insertion-order
dedup yields the same FinalResultSet as merging it once. -/
theorem merge_idempotent (t : String) (wordlist : List String) :
    mergeResults [t, t] wordlist = mergeResults [t] wordlist := by
  unfold mergeResults all_lines
  simp only [List.flatMap_cons, List.flatMap_nil, List.append_nil]
  rw [dedupFilter_append]
  have h0 : dedupFilter wordlist (seenAfter wordlist [] (splitClean t))
      (splitClean t) = [] :=
    dedupFilter_eq_nil wordlist (splitClean t)
      (seenAfter wordlist [] (splitClean t))
      (fun x hx => mem_seenAfter_of_mem_list wordlist (splitClean t) [] x hx)
  rw [h0, List.append_nil]

/-- C10: success and failure are distinguished only by the `ERROR:` text
prefix, so a successful API response whose text itself begins with `ERROR:`
is counted as a failure and its lines are excluded from the FinalResultSet. -/
theorem error_prefixed_success_misclassified :
    count_errors [Except.ok "ERROR: /admin\n/login"] = 1 ∧
    collect_results [Except.ok "ERROR: /admin\n/login"] = [] ∧
    finalResultSet [Except.ok "ERROR: /admin\n/login"] [] = [] := by
  refine ⟨by decide, by decide, by decide⟩

end Glacier
